import Mathlib

set_option maxHeartbeats 1000000

/-
Verification of the shin-asm compiler core: the constant-expression
evaluator (`src/shin-asm/src/compile/constexpr.rs`), the instruction
router (`src/shin-asm/src/compile/hir/lower/instruction/router.rs`),
and the lossless parse wrapper (`src/shin-asm/src/syntax/mod.rs`).

Machine integers are modelled as `Int` with explicit 32-bit range
checks mirroring Rust's `i32` checked arithmetic. Fallible code
returns `Except`/`Option`; a Rust panic (a `todo!` placeholder or a
missing hash-map entry) and a non-terminating execution are both
modelled as `Option.none` at the outermost level.
-/

/-- Smallest value of Rust's `i32`. -/
def i32_min : Int := -2147483648

/-- Largest value of Rust's `i32`. -/
def i32_max : Int := 2147483647

/-- Whether an integer is representable in Rust's `i32`. -/
def is_i32 (n : Int) : Bool := decide (i32_min ≤ n) && decide (n ≤ i32_max)

/-- Rust's `i32::checked_neg`: `None` exactly when the result overflows. -/
def checked_neg (a : Int) : Option Int :=
  if is_i32 (-a) then some (-a) else none

/-- Rust's `i32::checked_add`: `None` exactly when the result overflows. -/
def checked_add (a b : Int) : Option Int :=
  if is_i32 (a + b) then some (a + b) else none

/-- Rust's `i32::checked_sub`: `None` exactly when the result overflows. -/
def checked_sub (a b : Int) : Option Int :=
  if is_i32 (a - b) then some (a - b) else none

/-- Rust's `i32::checked_mul`: `None` exactly when the result overflows. -/
def checked_mul (a b : Int) : Option Int :=
  if is_i32 (a * b) then some (a * b) else none

/-- Rust's `i32::checked_div`: truncated division, `None` on a zero divisor
or on overflow (`i32_min / -1`). `Int.tdiv` truncates toward zero exactly as
Rust's `/` does. -/
def checked_div (a b : Int) : Option Int :=
  if b = 0 then none
  else if is_i32 (Int.tdiv a b) then some (Int.tdiv a b) else none

/-- Rust's `!` on `i32` (bitwise not): in two's complement, `!a = -a - 1`.
It never overflows for an in-range operand. -/
def i32_not (a : Int) : Int := -a - 1

/-- Modelled from the spec: a `Diagnostic` is a message, a primary location,
and zero or more additional labeled locations (the diagnostics module of
shin-asm is not part of the provided sources). -/
structure Diagnostic (L : Type) where
  message : String
  location : L
  additional_labels : List (String × L)
deriving DecidableEq

/-- Mirrors the `make_diagnostic!` macro: a diagnostic with a formatted
message, the given primary location and no additional labels. -/
def make_diagnostic {L : Type} (location : L) (message : String) : Diagnostic L :=
  ⟨message, location, []⟩

/-- Mirrors `Diagnostic::with_additional_label`: appends one labeled
secondary location. -/
def Diagnostic.with_additional_label {L : Type} (d : Diagnostic L)
    (message : String) (location : L) : Diagnostic L :=
  ⟨d.message, d.location, d.additional_labels ++ [(message, location)]⟩

/-- Modelled from the spec: a resolved name (the HIR `Name` type is not part
of the provided sources; only its use as a hash-map key matters here). -/
abbrev Name := String

/-- Modelled from the spec: a source span (the `Span` type is not part of
the provided sources; spans are opaque to the evaluator). -/
abbrev Span := Nat

/-- Modelled from the spec: an HIR expression id, an index into the
block's append-only expression arena. -/
abbrev ExprId := Nat

/-- Modelled from the spec: a register reference payload (opaque to the
constant evaluator, which rejects every register reference). -/
abbrev Register := Nat

/-- Modelled from the spec: the rational literal type; `constexpr.rs` only
calls `into_raw`, reading its internal integer encoding. -/
structure Rational where
  raw : Int
deriving DecidableEq

/-- Mirrors `Rational::into_raw`: the raw integer encoding. -/
def Rational.into_raw (r : Rational) : Int := r.raw

/-- Modelled from the spec: `hir::Literal` (the HIR module is not part of
the provided sources; the constructor set is the one matched by
`constexpr.rs`). -/
inductive Literal where
  | IntNumber (value : Int)
  | RationalNumber (value : Rational)
  | String (value : String)
deriving DecidableEq

/-- Mirrors `ast::UnaryOp` as matched by `constexpr.rs` (including the
source's spelling of `LogigalNot`). -/
inductive UnaryOp where
  | Negate
  | LogigalNot
  | BitwiseNot
deriving DecidableEq

/-- Mirrors `ast::BinaryOp` as matched by `constexpr.rs`: the four
implemented operators, plus `Other` standing for the remaining operators,
which the spec describes as explicit not-yet-implemented placeholders
(the evaluator hits a `todo!` panic on them). -/
inductive BinaryOp where
  | Add
  | Subtract
  | Multiply
  | Divide
  | Other (tag : Nat)
deriving DecidableEq

/-- Modelled from the spec: `hir::Expr` (the HIR module is not part of the
provided sources; the constructor set is the one matched by
`constexpr.rs`). -/
inductive Expr where
  | Missing
  | Literal (value : Literal)
  | NameRef (name : Name)
  | RegisterRef (register : Register)
  | Array (elements : List ExprId)
  | Mapping (entries : List (ExprId × ExprId))
  | UnaryOp (expr : ExprId) (op : UnaryOp)
  | BinaryOp (lhs : ExprId) (rhs : ExprId) (op : Option BinaryOp)
  | Call (target : Name) (args : List ExprId)
deriving DecidableEq

/-- Modelled from the spec: `HirBlockBody` exposes an append-only,
index-addressed expression arena. -/
structure HirBlockBody where
  exprs : List Expr
deriving DecidableEq

/-- Mirrors `LowerError`, the unit error type of HIR lowering. -/
structure LowerError where
deriving DecidableEq

/-- Mirrors `LowerResult<T> = Result<T, LowerError>`. -/
def LowerResult (α : Type) := Except LowerError α

instance {α : Type} [DecidableEq α] : DecidableEq (LowerResult α) := by
  unfold LowerResult
  intro a b
  cases a <;> cases b
  case error.error e f => cases e; cases f; exact isTrue rfl
  case ok.ok x y =>
    exact match decEq x y with
      | isTrue h => isTrue (by rw [h])
      | isFalse h => isFalse (fun hc => h (by injection hc))
  case error.ok e x => exact isFalse (fun hc => Except.noConfusion hc)
  case ok.error x e => exact isFalse (fun hc => Except.noConfusion hc)

/-- Mirrors `ConstexprValue`: a signed 32-bit integer in a distinct wrapper
type. -/
structure ConstexprValue where
  value : Int
deriving DecidableEq

/-- Mirrors `ConstexprValue::constant`. -/
def ConstexprValue.constant (value : Int) : ConstexprValue := ⟨value⟩

/-- Mirrors `ConstexprContextValue`: a name is bound either to an
(already evaluated) constant result with an optional defining span, or to
a marker that it denotes a code block defined at a span. -/
inductive ConstexprContextValue where
  | Value (value : LowerResult ConstexprValue) (span : Option Span)
  | Block (span : Span)
deriving DecidableEq

/-- Mirrors `ConstexprContext = FxHashMap<Name, ConstexprContextValue>`,
modelled as an association list (first binding for a name wins). -/
abbrev ConstexprContext := List (Name × ConstexprContextValue)

/-- Hash-map lookup (`ctx.context[name]` indexes and panics when the name
is absent; absence is reported as `none` here and surfaces as the
panic/`none` outcome of the evaluator). -/
def context_get (ctx : ConstexprContext) (name : Name) :
    Option ConstexprContextValue :=
  match ctx with
  | [] => none
  | p :: rest => if p.1 = name then some p.2 else context_get rest name

/-- Location type of constexpr diagnostics: `Either<hir::ExprId, Span>`,
with `Sum.inl` playing `Either::Left`. -/
abbrev ConstexprLoc := Sum ExprId Span

/-- Mirrors the `type_mismatch` helper of `constexpr.rs`. -/
def type_mismatch (location : ConstexprLoc) (expected found : String) :
    Diagnostic ConstexprLoc :=
  make_diagnostic location
    ("Type mismatch: expected " ++ expected ++ ", found " ++ found)

/-- Result of one evaluator call: the value-or-error outcome paired with
the diagnostics this call pushed into the sink, or `none` for an execution
that does not return (a `todo!` panic, a missing context entry, or
unbounded recursion through a cyclic arena). -/
abbrev EvalOutcome : Type :=
  Option (LowerResult ConstexprValue × List (Diagnostic ConstexprLoc))

/-- Shared tail of the binary-operator arms: a checked-arithmetic result is
either wrapped as the value, or turned into an "Overflow in constant
expression" diagnostic plus a failed result. -/
def bin_result (expr : ExprId) (diags : List (Diagnostic ConstexprLoc)) :
    Option Int → EvalOutcome
  | some r => some (Except.ok (ConstexprValue.constant r), diags)
  | none =>
      some (Except.error ⟨⟩,
        diags ++ [make_diagnostic (Sum.inl expr) "Overflow in constant expression"])

/-- Mirrors `evaluate` of `constexpr.rs`. The extra fuel argument bounds the
recursion depth; since an execution that returns never revisits an arena
index on one call path, `block.exprs.length + 1` fuel is exact: exhausting
it can only happen on a cyclic arena, where the Rust original recurses
forever. Diagnostics are returned as the list this call appends to the
caller-supplied sink, in push order. -/
def evaluate (ctx : ConstexprContext) (block : HirBlockBody) :
    Nat → ExprId → EvalOutcome
  | 0, _ => none
  | fuel + 1, expr =>
    match block.exprs.get? expr with
    | none => none
    | some Expr.Missing => some (Except.error ⟨⟩, [])
    | some (Expr.Literal (Literal.IntNumber value)) =>
        some (Except.ok (ConstexprValue.constant value), [])
    | some (Expr.Literal (Literal.RationalNumber value)) =>
        some (Except.ok (ConstexprValue.constant value.into_raw), [])
    | some (Expr.Literal (Literal.String _)) =>
        some (Except.error ⟨⟩,
          [type_mismatch (Sum.inl expr) "int or float" "string"])
    | some (Expr.NameRef name) =>
        match context_get ctx name with
        | none => none
        | some (ConstexprContextValue.Value value _) => some (value, [])
        | some (ConstexprContextValue.Block location) =>
            some (Except.error ⟨⟩,
              [(type_mismatch (Sum.inl expr) "int or float" "code reference").with_additional_label
                  "Code reference defined at" (Sum.inr location)])
    | some (Expr.RegisterRef _) =>
        some (Except.error ⟨⟩,
          [make_diagnostic (Sum.inl expr) "Registers cannot be used in const context"])
    | some (Expr.Array _) =>
        some (Except.error ⟨⟩,
          [type_mismatch (Sum.inl expr) "int or float" "array"])
    | some (Expr.Mapping _) =>
        some (Except.error ⟨⟩,
          [type_mismatch (Sum.inl expr) "int or float" "mapping"])
    | some (Expr.UnaryOp val op) =>
        match evaluate ctx block fuel val with
        | none => none
        | some (Except.error e, diags) => some (Except.error e, diags)
        | some (Except.ok v, diags) =>
            match
              (match op with
               | UnaryOp.Negate => checked_neg v.value
               | UnaryOp.LogigalNot => some (if v.value = 0 then 1 else 0)
               | UnaryOp.BitwiseNot => some (i32_not v.value)) with
            | some r => some (Except.ok (ConstexprValue.constant r), diags)
            | none =>
                some (Except.error ⟨⟩,
                  diags ++ [make_diagnostic (Sum.inl expr) "Overflow in constant expression"])
    | some (Expr.BinaryOp lhs rhs op) =>
        match evaluate ctx block fuel lhs with
        | none => none
        | some (lhsr, d1) =>
          match evaluate ctx block fuel rhs with
          | none => none
          | some (rhsr, d2) =>
            match lhsr, rhsr, op with
            | Except.ok l, Except.ok r, some oper =>
                match oper with
                | BinaryOp.Add => bin_result expr (d1 ++ d2) (checked_add l.value r.value)
                | BinaryOp.Subtract => bin_result expr (d1 ++ d2) (checked_sub l.value r.value)
                | BinaryOp.Multiply => bin_result expr (d1 ++ d2) (checked_mul l.value r.value)
                | BinaryOp.Divide =>
                    if r.value = 0 then
                      some (Except.error ⟨⟩,
                        d1 ++ d2 ++ [make_diagnostic (Sum.inl expr) "Division by zero"])
                    else bin_result expr (d1 ++ d2) (checked_div l.value r.value)
                | BinaryOp.Other _ => none
            | _, _, _ => some (Except.error ⟨⟩, d1 ++ d2)
    | some (Expr.Call _ _) => none

/-- Mirrors `constexpr_evaluate`: runs `evaluate` with a fresh diagnostics
sink and returns the outcome together with the accumulated diagnostics. -/
def constexpr_evaluate (context : ConstexprContext) (block : HirBlockBody)
    (expr : ExprId) : EvalOutcome :=
  evaluate context block (block.exprs.length + 1) expr

/-- Modelled from the spec: an HIR instruction id (opaque to the router;
`instr.into()` turns it into a diagnostic location). -/
abbrev InstructionId := Nat

/-- Modelled from the spec: the encoded `Instruction` of shin-core — an
opcode tag with typed operand fields; the router never inspects it, so only
the opcode tag is kept. -/
structure Instruction where
  opcode : Nat
deriving DecidableEq

/-- Modelled from the spec: `FromHirCollectors` is the caller-supplied
diagnostics sink of HIR lowering, reduced to what the router uses:
`emit_diagnostic`. -/
abbrev FromHirCollectors := List (Diagnostic InstructionId)

/-- Mirrors `FromHirCollectors::emit_diagnostic`: pushes one diagnostic. -/
def emit_diagnostic (collectors : FromHirCollectors) (location : InstructionId)
    (message : String) : FromHirCollectors :=
  collectors ++ [make_diagnostic location message]

/-- Modelled from the spec: the context handed to every handler (opaque to
the router, which merely threads it through). -/
abbrev FromHirBlockCtx := Nat

/-- The router chain, reifying the source's type-level list: `SentinelRouter`
is the terminal handler and `ConsRouter` one `(name, argument-extractor,
lowering-function)` link in front of a tail chain. The argument extractor
stands for `Args::from_instr_args` and the lowering function for
`LowerFn::lower_instr`; both may push diagnostics into the sink. -/
inductive Router : Type 1 where
  | SentinelRouter : Router
  | ConsRouter (name : String) (Args : Type)
      (from_instr_args :
        FromHirCollectors → FromHirBlockCtx → InstructionId →
          FromHirCollectors × Option Args)
      (lower_fn :
        FromHirCollectors → FromHirBlockCtx → String → Args →
          FromHirCollectors × Option Instruction)
      (tail : Router) : Router

/-- Mirrors `Router::handle_instr` for both implementations: the sentinel
emits the "Unrecognized instruction" diagnostic and yields no instruction;
a cons link compares the mnemonic with its bound name, on a match runs its
argument extractor (whose failure short-circuits via `?`) and then its
lowering function, and otherwise defers to the tail. -/
def Router.handle_instr :
    Router → FromHirCollectors → FromHirBlockCtx → String → InstructionId →
      FromHirCollectors × Option Instruction
  | Router.SentinelRouter, collectors, _, instr_name, instr =>
      (emit_diagnostic collectors instr
        ("Unrecognized instruction: `" ++ instr_name ++ "`"), none)
  | Router.ConsRouter name _ from_instr_args lower_fn tail,
      collectors, ctx, instr_name, instr =>
      if instr_name = name then
        match from_instr_args collectors ctx instr with
        | (collectors', none) => (collectors', none)
        | (collectors', some args) => lower_fn collectors' ctx instr_name args
      else
        tail.handle_instr collectors ctx instr_name instr

/-- Mirrors `RouterBuilder`: a wrapper around the chain built so far. -/
structure RouterBuilder : Type 1 where
  router : Router

/-- Mirrors `RouterBuilder::new`: starts from the sentinel. -/
def RouterBuilder.new : RouterBuilder := ⟨Router.SentinelRouter⟩

/-- Mirrors `RouterBuilder::add`: prepends one handler in front of the chain
built so far. -/
def RouterBuilder.add (b : RouterBuilder) (name : String) (Args : Type)
    (from_instr_args :
      FromHirCollectors → FromHirBlockCtx → InstructionId →
        FromHirCollectors × Option Args)
    (lower_fn :
      FromHirCollectors → FromHirBlockCtx → String → Args →
        FromHirCollectors × Option Instruction) : RouterBuilder :=
  ⟨Router.ConsRouter name Args from_instr_args lower_fn b.router⟩

/-- Mirrors `RouterBuilder::build`. -/
def RouterBuilder.build (b : RouterBuilder) : Router := b.router

/-- One registration triple as fed to `RouterBuilder::add`, packaged as data
so that a whole registration list can be quantified over. -/
structure Registration : Type 1 where
  name : String
  Args : Type
  from_instr_args :
    FromHirCollectors → FromHirBlockCtx → InstructionId →
      FromHirCollectors × Option Args
  lower_fn :
    FromHirCollectors → FromHirBlockCtx → String → Args →
      FromHirCollectors × Option Instruction

/-- Registers a list of handlers in order by repeated `RouterBuilder.add`. -/
def RouterBuilder.add_all (b : RouterBuilder) (regs : List Registration) :
    RouterBuilder :=
  regs.foldl
    (fun acc r => acc.add r.name r.Args r.from_instr_args r.lower_fn) b

/-- What one matched link does with the dispatched instruction: run the
argument extractor, short-circuit on its failure, then run the lowering
function. -/
def apply_handler (r : Registration) (collectors : FromHirCollectors)
    (ctx : FromHirBlockCtx) (instr_name : String) (instr : InstructionId) :
    FromHirCollectors × Option Instruction :=
  match r.from_instr_args collectors ctx instr with
  | (collectors', none) => (collectors', none)
  | (collectors', some args) => r.lower_fn collectors' ctx instr_name args

/-- The names bound by the links of a chain, head first. -/
def Router.names : Router → List String
  | Router.SentinelRouter => []
  | Router.ConsRouter name _ _ _ tail => name :: tail.names

/-- The last registration in the list that binds the given name, if any. -/
def last_match : List Registration → String → Option Registration
  | [], _ => none
  | r :: rest, name =>
    match last_match rest name with
    | some g => some g
    | none => if r.name = name then some r else none

/-- Modelled from the spec: the green tree of the `rowan` crate — an
immutable, structurally shared tree of kinded nodes; the parse wrapper
treats it as opaque data. -/
inductive GreenNode where
  | node (kind : Nat) (children : List GreenNode)

/-- Modelled from the spec: a syntax error is a message with a source
range. -/
structure SyntaxError where
  message : String
  range : Nat × Nat

/-- Modelled from the spec: a syntax-node cursor over a green tree;
`new_root` mirrors `SyntaxNode::new_root`, pointing a fresh cursor at the
root of a green tree. -/
structure SyntaxNode where
  green : GreenNode

/-- Mirrors `SyntaxNode::new_root`. -/
def SyntaxNode.new_root (green : GreenNode) : SyntaxNode := ⟨green⟩

/-- Mirrors `Parse<T>`: a green tree plus the list of syntax errors, with a
phantom type recording the typed view. Cloning shares both parts (`Arc`),
which the model renders by plain value sharing. -/
structure Parse (T : Type) where
  green : GreenNode
  errors : List SyntaxError

/-- Modelled from the spec: the `AstNode` trait — a typed view over syntax
nodes whose `cast` accepts exactly the nodes of its tree-kind. -/
class AstNode (N : Type) where
  cast : SyntaxNode → Option N

/-- Mirrors `Parse::syntax_node`: a fresh root cursor over the green tree. -/
def Parse.syntax_node {T : Type} (p : Parse T) : SyntaxNode :=
  SyntaxNode.new_root p.green

/-- Mirrors `Parse::<SyntaxNode>::cast::<N>`: a capability check — the typed
parse is produced, sharing the green tree and the error list, exactly when
`N::cast` succeeds on the root syntax node. -/
def Parse.cast (N : Type) [AstNode N] (p : Parse SyntaxNode) :
    Option (Parse N) :=
  if (AstNode.cast p.syntax_node : Option N).isSome then
    some ⟨p.green, p.errors⟩
  else
    none

/-- An expression node whose evaluation can fail without pushing any
diagnostic of its own: a `Missing` node (its problem was already reported
as a syntax error before HIR lowering) and a binary node whose operator is
absent. -/
def expr_fails_silently : Expr → Bool
  | Expr.Missing => true
  | Expr.BinaryOp _ _ none => true
  | _ => false

/-- A context binding whose use propagates an earlier failure without a new
diagnostic: a name bound to an already-failed constant result (its
diagnostic was pushed when that alias was evaluated). -/
def context_value_propagates_failure : ConstexprContextValue → Bool
  | ConstexprContextValue.Value (Except.error _) _ => true
  | _ => false

/-- No expression of the block and no context binding can fail without a
diagnostic of its own. -/
def no_silent_failures (ctx : ConstexprContext) (block : HirBlockBody) : Bool :=
  block.exprs.all (fun e => !(expr_fails_silently e)) &&
  ctx.all (fun p => !(context_value_propagates_failure p.2))

/-- The HIR of `a / 0`: two integer literals and a division node. -/
def div_block (a : Int) : HirBlockBody :=
  ⟨[Expr.Literal (Literal.IntNumber a), Expr.Literal (Literal.IntNumber 0),
    Expr.BinaryOp 0 1 (some BinaryOp.Divide)]⟩

/-- The HIR of `a <op> b`: two integer literals and one binary node. -/
def bin_block (a b : Int) (op : BinaryOp) : HirBlockBody :=
  ⟨[Expr.Literal (Literal.IntNumber a), Expr.Literal (Literal.IntNumber b),
    Expr.BinaryOp 0 1 (some op)]⟩

/-- The HIR of `-a`: an integer literal and a negation node. -/
def neg_block (a : Int) : HirBlockBody :=
  ⟨[Expr.Literal (Literal.IntNumber a), Expr.UnaryOp 0 UnaryOp.Negate]⟩

/-- The HIR of `2 + 3 * 4`: the addition of literal `2` and the
multiplication of literals `3` and `4`; expression 4 is the root. -/
def two_plus_three_times_four : HirBlockBody :=
  ⟨[Expr.Literal (Literal.IntNumber 2), Expr.Literal (Literal.IntNumber 3),
    Expr.Literal (Literal.IntNumber 4),
    Expr.BinaryOp 1 2 (some BinaryOp.Multiply),
    Expr.BinaryOp 0 3 (some BinaryOp.Add)]⟩

/-- The exact mathematical result of a binary operator on unbounded
integers: defined for the four implemented operators, except on a zero
divisor. `Int.tdiv` matches Rust's truncating division. -/
def exact_result : BinaryOp → Int → Int → Option Int
  | BinaryOp.Add, a, b => some (a + b)
  | BinaryOp.Subtract, a, b => some (a - b)
  | BinaryOp.Multiply, a, b => some (a * b)
  | BinaryOp.Divide, a, b => if b = 0 then none else some (Int.tdiv a b)
  | BinaryOp.Other _, _, _ => none

/-- A handler registration for the mnemonic `"NOP"` whose lowering encodes
opcode 1 (used to witness shadowing between duplicate registrations). -/
def nop_registration_one : Registration :=
  ⟨"NOP", Unit, fun collectors _ _ => (collectors, some ()),
    fun collectors _ _ _ => (collectors, some ⟨1⟩)⟩

/-- A second handler registration for the mnemonic `"NOP"`, encoding
opcode 2. -/
def nop_registration_two : Registration :=
  ⟨"NOP", Unit, fun collectors _ _ => (collectors, some ()),
    fun collectors _ _ _ => (collectors, some ⟨2⟩)⟩

/-- A router with only a `"NOP"` handler in front of the sentinel. -/
def nop_router : Router :=
  Router.ConsRouter "NOP" Unit (fun collectors _ _ => (collectors, some ()))
    (fun collectors _ _ _ => (collectors, some ⟨1⟩)) Router.SentinelRouter

/-- Modelled from the spec: the `SourceFile` typed view, accepting exactly
the root tree-kind (kind 0 stands for `SOURCE_FILE`). -/
structure SourceFile where
  node : SyntaxNode

instance : AstNode SourceFile where
  cast n :=
    match n.green with
    | GreenNode.node 0 _ => some ⟨n⟩
    | _ => none

/-- A concrete untyped parse: a kind-0 root and one syntax error. -/
def parse_zero : Parse SyntaxNode :=
  ⟨GreenNode.node 0 [], [⟨"err", (0, 1)⟩]⟩

/-- The typed view of `parse_zero` produced by `Parse.cast`. -/
def parse_zero_cast : Parse SourceFile :=
  ⟨GreenNode.node 0 [], [⟨"err", (0, 1)⟩]⟩

/-- Helper: a successful context lookup returns the value of some binding
of the association list. -/
theorem context_get_mem {ctx : ConstexprContext} {name : Name}
    {v : ConstexprContextValue} (h : context_get ctx name = some v) :
    ∃ p ∈ ctx, p.2 = v := by
  induction ctx with
  | nil => simp [context_get] at h
  | cons p rest ih =>
    rw [context_get] at h
    by_cases hp : p.1 = name
    · simp [hp] at h
      exact ⟨p, List.mem_cons_self p rest, h⟩
    · simp [hp] at h
      obtain ⟨q, hq, hv⟩ := ih h
      exact ⟨q, List.mem_cons_of_mem p hq, hv⟩

theorem evaluate_error_has_diagnostic (ctx : ConstexprContext)
    (block : HirBlockBody) (h : no_silent_failures ctx block = true) :
    ∀ fuel e r d, evaluate ctx block fuel e = some (Except.error r, d) →
      d ≠ [] := by
  have hexpr : ∀ e ∈ block.exprs, expr_fails_silently e = false := by
    intro e he
    have := (List.all_eq_true.mp (Bool.and_elim_left h)) e he
    simpa using this
  have hctx : ∀ p ∈ ctx, context_value_propagates_failure p.2 = false := by
    intro p hp
    have := (List.all_eq_true.mp (Bool.and_elim_right h)) p hp
    simpa using this
  intro fuel
  induction fuel with
  | zero => intro e r d heval; simp [evaluate] at heval
  | succ n ih =>
    intro e r d heval
    simp only [evaluate] at heval
    split at heval
    -- arena index out of bounds: the call panics, no result
    · simp at heval
    -- Missing: excluded by the no-silent-failures hypothesis
    · rename_i heq
      exfalso
      have hm := hexpr Expr.Missing (List.get?_mem heq)
      simp [expr_fails_silently] at hm
    -- integer literal: succeeds
    · simp at heval
    -- rational literal: succeeds
    · simp at heval
    -- string literal: one type-mismatch diagnostic
    · simp only [Option.some.injEq, Prod.mk.injEq] at heval
      rw [← heval.2]
      simp
    -- name reference: nested match on the context lookup
    · rename_i name heq
      split at heval
      · simp at heval
      · rename_i value span hget
        exfalso
        obtain ⟨p, hp, hpv⟩ := context_get_mem hget
        have hv := hctx p hp
        rw [hpv] at hv
        simp only [Option.some.injEq, Prod.mk.injEq] at heval
        rw [heval.1] at hv
        simp [context_value_propagates_failure] at hv
      · simp only [Option.some.injEq, Prod.mk.injEq] at heval
        rw [← heval.2]
        simp
    -- register reference: one diagnostic
    · simp only [Option.some.injEq, Prod.mk.injEq] at heval
      rw [← heval.2]
      simp
    -- array literal: one diagnostic
    · simp only [Option.some.injEq, Prod.mk.injEq] at heval
      rw [← heval.2]
      simp
    -- mapping literal: one diagnostic
    · simp only [Option.some.injEq, Prod.mk.injEq] at heval
      rw [← heval.2]
      simp
    -- unary operator
    · rename_i val op heq
      split at heval
      · simp at heval
      · rename_i e' diags heq2
        simp only [Option.some.injEq, Prod.mk.injEq] at heval
        rw [← heval.2]
        exact ih _ _ _ heq2
      · rename_i v diags heq2
        split at heval
        · simp at heval
        · simp only [Option.some.injEq, Prod.mk.injEq] at heval
          rw [← heval.2]
          simp
    -- binary operator
    · rename_i lhs rhs op heq
      split at heval
      · simp at heval
      · rename_i lhsr d1 heq1
        split at heval
        · simp at heval
        · rename_i rhsr d2 heq2
          split at heval
          · rename_i l rv oper
            split at heval
            · -- Add
              rw [bin_result.eq_def] at heval
              split at heval
              · simp at heval
              · simp only [Option.some.injEq, Prod.mk.injEq] at heval
                rw [← heval.2]
                simp
            · -- Subtract
              rw [bin_result.eq_def] at heval
              split at heval
              · simp at heval
              · simp only [Option.some.injEq, Prod.mk.injEq] at heval
                rw [← heval.2]
                simp
            · -- Multiply
              rw [bin_result.eq_def] at heval
              split at heval
              · simp at heval
              · simp only [Option.some.injEq, Prod.mk.injEq] at heval
                rw [← heval.2]
                simp
            · -- Divide
              split at heval
              · simp only [Option.some.injEq, Prod.mk.injEq] at heval
                rw [← heval.2]
                simp
              · rw [bin_result.eq_def] at heval
                split at heval
                · simp at heval
                · simp only [Option.some.injEq, Prod.mk.injEq] at heval
                  rw [← heval.2]
                  simp
            · -- an unimplemented operator: the call panics
              simp at heval
          · -- one operand failed: the failure propagates, no new diagnostic
            rename_i hnomatch
            simp only [Option.some.injEq, Prod.mk.injEq] at heval
            rw [← heval.2]
            have hop : op ≠ none := by
              intro hnone
              have hm := hexpr (Expr.BinaryOp lhs rhs op) (List.get?_mem heq)
              rw [hnone] at hm
              simp [expr_fails_silently] at hm
            obtain ⟨oper, hoper⟩ := Option.ne_none_iff_exists'.mp hop
            cases lhsr with
            | error e1 =>
              have h1 := ih _ _ _ heq1
              intro hcontra
              exact h1 (List.append_eq_nil.mp hcontra).1
            | ok l =>
              cases rhsr with
              | error e2 =>
                have h2 := ih _ _ _ heq2
                intro hcontra
                exact h2 (List.append_eq_nil.mp hcontra).2
              | ok rv =>
                exact (hnomatch l rv oper rfl rfl hoper).elim
    -- call expression: the call panics
    · simp at heval

/-- C1 (amended): a failed `constexpr_evaluate` has pushed at least one
diagnostic, provided the failure is not the propagation of an already
reported one — the block has no `Missing` expression and no binary node
with an absent operator, and no context binding carries a failed value. -/
theorem constexpr_error_implies_diagnostic (context : ConstexprContext)
    (block : HirBlockBody) (expr : ExprId) (r : LowerError)
    (d : List (Diagnostic ConstexprLoc))
    (hns : no_silent_failures context block = true)
    (heval : constexpr_evaluate context block expr = some (Except.error r, d)) :
    d ≠ [] :=
  evaluate_error_has_diagnostic context block hns _ expr r d heval

/-- Witness for `constexpr_error_implies_diagnostic` at a string literal. -/
theorem constexpr_error_implies_diagnostic_witness :
    no_silent_failures [] ⟨[Expr.Literal (Literal.String "x")]⟩ = true ∧
    ([type_mismatch (Sum.inl 0) "int or float" "string"] :
      List (Diagnostic ConstexprLoc)) ≠ [] :=
  ⟨rfl,
    constexpr_error_implies_diagnostic [] ⟨[Expr.Literal (Literal.String "x")]⟩
      0 ⟨⟩ [type_mismatch (Sum.inl 0) "int or float" "string"] rfl rfl⟩

/-- C1 counterexample: evaluating a `Missing` expression fails and pushes
no diagnostic at all, so a failed result does not always come with a
recorded diagnostic. -/
theorem constexpr_missing_error_no_diagnostic :
    constexpr_evaluate [] ⟨[Expr.Missing]⟩ 0 =
      some (Except.error ⟨⟩, ([] : List (Diagnostic ConstexprLoc))) := rfl

/-- C2: for every 32-bit operand `a`, evaluating `a / 0` fails and records
exactly the "Division by zero" diagnostic — in particular no overflow
diagnostic. -/
theorem constexpr_divide_by_zero (context : ConstexprContext) (a : Int)
    (ha : is_i32 a = true) :
    constexpr_evaluate context (div_block a) 2 =
      some (Except.error ⟨⟩,
        [make_diagnostic (Sum.inl 2) "Division by zero"]) := rfl

/-- Witness for `constexpr_divide_by_zero` at `10 / 0`. -/
theorem constexpr_divide_by_zero_witness :
    is_i32 10 = true ∧
    constexpr_evaluate [] (div_block 10) 2 =
      some (Except.error ⟨⟩,
        [make_diagnostic (Sum.inl 2) "Division by zero"]) :=
  ⟨rfl, constexpr_divide_by_zero [] 10 rfl⟩

/-- C3: the evaluator's negate and the four binary operators use checked
32-bit arithmetic: on 32-bit operands whose exact result is not
representable in `i32`, evaluation fails with exactly the "Overflow in
constant expression" diagnostic instead of a wrapped value. -/
theorem constexpr_checked_arithmetic (context : ConstexprContext)
    (a b r : Int) (op : BinaryOp)
    (ha : is_i32 a = true) (hb : is_i32 b = true) :
    (exact_result op a b = some r → is_i32 r = false →
      constexpr_evaluate context (bin_block a b op) 2 =
        some (Except.error ⟨⟩,
          [make_diagnostic (Sum.inl 2) "Overflow in constant expression"]))
    ∧ (is_i32 (-a) = false →
      constexpr_evaluate context (neg_block a) 1 =
        some (Except.error ⟨⟩,
          [make_diagnostic (Sum.inl 1) "Overflow in constant expression"])) := by
  constructor
  · intro hr hov
    cases op with
    | Add =>
      simp only [exact_result, Option.some.injEq] at hr
      rw [← hr] at hov
      simp [constexpr_evaluate, evaluate, bin_block, bin_result,
        ConstexprValue.constant, checked_add, hov]
    | Subtract =>
      simp only [exact_result, Option.some.injEq] at hr
      rw [← hr] at hov
      simp [constexpr_evaluate, evaluate, bin_block, bin_result,
        ConstexprValue.constant, checked_sub, hov]
    | Multiply =>
      simp only [exact_result, Option.some.injEq] at hr
      rw [← hr] at hov
      simp [constexpr_evaluate, evaluate, bin_block, bin_result,
        ConstexprValue.constant, checked_mul, hov]
    | Divide =>
      by_cases hz : b = 0
      · rw [exact_result, if_pos hz] at hr
        exact absurd hr (by simp)
      · rw [exact_result, if_neg hz] at hr
        simp only [Option.some.injEq] at hr
        rw [← hr] at hov
        simp [constexpr_evaluate, evaluate, bin_block, bin_result,
          ConstexprValue.constant, checked_div, hz, hov]
    | Other tag => exact absurd hr (by simp [exact_result])
  · intro hov
    simp [constexpr_evaluate, evaluate, neg_block,
      ConstexprValue.constant, checked_neg, hov]

/-- Witness for `constexpr_checked_arithmetic` at `2147483647 + 1`. -/
theorem constexpr_checked_arithmetic_witness :
    is_i32 i32_max = true ∧ is_i32 1 = true ∧
    constexpr_evaluate [] (bin_block i32_max 1 BinaryOp.Add) 2 =
      some (Except.error ⟨⟩,
        [make_diagnostic (Sum.inl 2) "Overflow in constant expression"]) :=
  ⟨by decide, by decide,
    (constexpr_checked_arithmetic [] i32_max 1 2147483648 BinaryOp.Add
      (by decide) (by decide)).1 (by decide) (by decide)⟩

/-- C4 (amended): string, array and mapping literals and names bound to a
code block fail with a type-mismatch diagnostic naming the found kind (the
code-block case carrying a secondary label at the block's defining span),
while a register reference fails with the dedicated "Registers cannot be
used in const context" diagnostic. -/
theorem constexpr_type_rejection (context : ConstexprContext) (s : String)
    (elements : List ExprId) (entries : List (ExprId × ExprId))
    (register : Register) (name : Name) (span : Span) :
    constexpr_evaluate context ⟨[Expr.Literal (Literal.String s)]⟩ 0 =
      some (Except.error ⟨⟩,
        [type_mismatch (Sum.inl 0) "int or float" "string"])
    ∧ constexpr_evaluate context ⟨[Expr.Array elements]⟩ 0 =
      some (Except.error ⟨⟩,
        [type_mismatch (Sum.inl 0) "int or float" "array"])
    ∧ constexpr_evaluate context ⟨[Expr.Mapping entries]⟩ 0 =
      some (Except.error ⟨⟩,
        [type_mismatch (Sum.inl 0) "int or float" "mapping"])
    ∧ constexpr_evaluate context ⟨[Expr.RegisterRef register]⟩ 0 =
      some (Except.error ⟨⟩,
        [make_diagnostic (Sum.inl 0) "Registers cannot be used in const context"])
    ∧ (context_get context name = some (ConstexprContextValue.Block span) →
      constexpr_evaluate context ⟨[Expr.NameRef name]⟩ 0 =
        some (Except.error ⟨⟩,
          [(type_mismatch (Sum.inl 0) "int or float" "code reference").with_additional_label
              "Code reference defined at" (Sum.inr span)])) := by
  refine ⟨rfl, rfl, rfl, rfl, fun h => ?_⟩
  simp [constexpr_evaluate, evaluate, h]

/-- Witness for `constexpr_type_rejection` with `FOO` bound to a code block
defined at span 7. -/
theorem constexpr_type_rejection_witness :
    context_get [("FOO", ConstexprContextValue.Block 7)] "FOO" =
      some (ConstexprContextValue.Block 7) ∧
    constexpr_evaluate [("FOO", ConstexprContextValue.Block 7)]
        ⟨[Expr.NameRef "FOO"]⟩ 0 =
      some (Except.error ⟨⟩,
        [(type_mismatch (Sum.inl 0) "int or float" "code reference").with_additional_label
            "Code reference defined at" (Sum.inr 7)]) :=
  ⟨rfl,
    (constexpr_type_rejection [("FOO", ConstexprContextValue.Block 7)] "x"
      [] [] 0 "FOO" 7).2.2.2.2 rfl⟩

/-- C4 counterexample: a register reference fails, but its diagnostic is
the dedicated register message, not a type-mismatch naming the found
kind. -/
theorem constexpr_register_diagnostic_not_type_mismatch :
    constexpr_evaluate [] ⟨[Expr.RegisterRef 0]⟩ 0 =
      some (Except.error ⟨⟩,
        [make_diagnostic (Sum.inl 0) "Registers cannot be used in const context"])
    ∧ make_diagnostic (Sum.inl 0 : ConstexprLoc)
        "Registers cannot be used in const context" ≠
      type_mismatch (Sum.inl 0) "int or float" "register" :=
  ⟨rfl, by decide⟩

/-- C5: `2 + 3 * 4` evaluates to `14` with zero diagnostics in every
constant context. -/
theorem constexpr_two_plus_three_times_four (context : ConstexprContext) :
    constexpr_evaluate context two_plus_three_times_four 4 =
      some (Except.ok (ConstexprValue.constant 14), []) := rfl

/-- C6: in a binary add/subtract/multiply/divide node both operands are
evaluated, and if either one fails the whole node fails while pushing no
diagnostic of its own: the diagnostics are exactly those of the two
operand evaluations, in order. -/
theorem binary_operand_failure_propagates (context : ConstexprContext)
    (block : HirBlockBody) (fuel : Nat) (lhs rhs e : ExprId)
    (op : Option BinaryOp) (r1 r2 : LowerResult ConstexprValue)
    (d1 d2 : List (Diagnostic ConstexprLoc))
    (hb : block.exprs.get? e = some (Expr.BinaryOp lhs rhs op))
    (h1 : evaluate context block fuel lhs = some (r1, d1))
    (h2 : evaluate context block fuel rhs = some (r2, d2))
    (hfail : r1 = Except.error ⟨⟩ ∨ r2 = Except.error ⟨⟩) :
    evaluate context block (fuel + 1) e = some (Except.error ⟨⟩, d1 ++ d2) := by
  simp only [evaluate, hb, h1, h2]
  rcases hfail with h | h
  · subst h
    cases r2 <;> cases op <;> rfl
  · subst h
    cases r1 <;> cases op <;> rfl

/-- Witness for `binary_operand_failure_propagates`: `"x" + 1` propagates
the operand's type-mismatch diagnostic only. -/
theorem binary_operand_failure_propagates_witness :
    (⟨[Expr.Literal (Literal.String "x"), Expr.Literal (Literal.IntNumber 1),
        Expr.BinaryOp 0 1 (some BinaryOp.Add)]⟩ : HirBlockBody).exprs.get? 2 =
      some (Expr.BinaryOp 0 1 (some BinaryOp.Add)) ∧
    evaluate [] ⟨[Expr.Literal (Literal.String "x"),
        Expr.Literal (Literal.IntNumber 1),
        Expr.BinaryOp 0 1 (some BinaryOp.Add)]⟩ 2 2 =
      some (Except.error ⟨⟩,
        [type_mismatch (Sum.inl 0) "int or float" "string"] ++ []) :=
  ⟨rfl,
    binary_operand_failure_propagates []
      ⟨[Expr.Literal (Literal.String "x"), Expr.Literal (Literal.IntNumber 1),
        Expr.BinaryOp 0 1 (some BinaryOp.Add)]⟩ 1 0 1 2
      (some BinaryOp.Add) (Except.error ⟨⟩) (Except.ok (ConstexprValue.constant 1))
      [type_mismatch (Sum.inl 0) "int or float" "string"] []
      rfl rfl rfl (Or.inl rfl)⟩

/-- C7: dispatching a mnemonic registered by no link of the chain reaches
the sentinel, which yields no instruction and pushes exactly one
diagnostic naming the mnemonic. -/
theorem router_unregistered_mnemonic (r : Router)
    (collectors : FromHirCollectors) (ctx : FromHirBlockCtx)
    (instr_name : String) (instr : InstructionId)
    (h : instr_name ∉ r.names) :
    r.handle_instr collectors ctx instr_name instr =
      (collectors ++
        [make_diagnostic instr
          ("Unrecognized instruction: `" ++ instr_name ++ "`")], none) := by
  induction r with
  | SentinelRouter => rfl
  | ConsRouter name Args from_instr_args lower_fn tail ih =>
    rw [Router.names] at h
    have hne : instr_name ≠ name := fun hc => h (hc ▸ List.mem_cons_self _ _)
    have htail : instr_name ∉ tail.names :=
      fun hc => h (List.mem_cons_of_mem _ hc)
    rw [Router.handle_instr, if_neg hne]
    exact ih htail

/-- Witness for `router_unregistered_mnemonic`: dispatching `"JMP"` on a
router that only registers `"NOP"`. -/
theorem router_unregistered_mnemonic_witness :
    ("JMP" ∉ nop_router.names) ∧
    nop_router.handle_instr [] 0 "JMP" 5 =
      ([] ++ [make_diagnostic 5 ("Unrecognized instruction: `" ++ "JMP" ++ "`")],
        none) :=
  ⟨by decide, router_unregistered_mnemonic nop_router [] 0 "JMP" 5 (by decide)⟩

/-- Helper: dispatching on a chain built by registering `regs` in order in
front of `acc` selects the last registration whose name matches, and falls
back to `acc` when none does (the builder prepends, so later registrations
sit closer to the head). -/
theorem add_all_dispatch (regs : List Registration) (acc : Router)
    (collectors : FromHirCollectors) (ctx : FromHirBlockCtx) (name : String)
    (instr : InstructionId) :
    ((RouterBuilder.mk acc).add_all regs).build.handle_instr
        collectors ctx name instr =
      (match last_match regs name with
       | some g => apply_handler g collectors ctx name instr
       | none => acc.handle_instr collectors ctx name instr) := by
  induction regs generalizing acc with
  | nil => rfl
  | cons r rest ih =>
    rw [show (RouterBuilder.mk acc).add_all (r :: rest) =
        (RouterBuilder.mk (Router.ConsRouter r.name r.Args r.from_instr_args
          r.lower_fn acc)).add_all rest from rfl]
    rw [ih]
    rw [last_match]
    cases hlm : last_match rest name with
    | some g => simp [hlm]
    | none =>
      simp only [hlm]
      by_cases hn : r.name = name
      · rw [if_pos hn]
        simp only [Router.handle_instr]
        rw [if_pos hn.symm, apply_handler.eq_def]
        rcases hx : r.from_instr_args collectors ctx instr with ⟨c, o⟩
        cases o <;> rfl
      · rw [if_neg hn]
        simp only [Router.handle_instr]
        rw [if_neg (fun hc => hn hc.symm)]

/-- C8: the builder prepends, so when several handlers are registered
under the same mnemonic, dispatch always selects the registration that
came last; the earlier ones are never consulted. -/
theorem router_last_registration_wins (regs : List Registration)
    (g : Registration) (collectors : FromHirCollectors)
    (ctx : FromHirBlockCtx) (name : String) (instr : InstructionId)
    (h : last_match regs name = some g) :
    (RouterBuilder.new.add_all regs).build.handle_instr
        collectors ctx name instr =
      apply_handler g collectors ctx name instr := by
  have hd := add_all_dispatch regs Router.SentinelRouter collectors ctx name instr
  rw [h] at hd
  exact hd

/-- Witness for `router_last_registration_wins`: two `"NOP"` registrations;
the second (last) one decides the dispatch. -/
theorem router_last_registration_wins_witness :
    last_match [nop_registration_one, nop_registration_two] "NOP" =
      some nop_registration_two ∧
    (RouterBuilder.new.add_all
        [nop_registration_one, nop_registration_two]).build.handle_instr
        [] 0 "NOP" 5 =
      apply_handler nop_registration_two [] 0 "NOP" 5 :=
  ⟨rfl,
    router_last_registration_wins [nop_registration_one, nop_registration_two]
      nop_registration_two [] 0 "NOP" 5 rfl⟩

/-- C9: `Parse.cast` succeeds exactly when the typed view's `cast` accepts
the root syntax node, and the typed parse it returns shares the green tree
and the syntax-error list of the original parse. -/
theorem parse_cast_capability (N : Type) [AstNode N] (p : Parse SyntaxNode) :
    ((Parse.cast N p).isSome ↔ (AstNode.cast p.syntax_node : Option N).isSome)
    ∧ ∀ q : Parse N, Parse.cast N p = some q →
        q.green = p.green ∧ q.errors = p.errors := by
  constructor
  · rw [Parse.cast]
    by_cases h : (AstNode.cast p.syntax_node : Option N).isSome <;> simp [h]
  · intro q hq
    rw [Parse.cast] at hq
    by_cases h : (AstNode.cast p.syntax_node : Option N).isSome
    · rw [if_pos h] at hq
      injection hq with hq
      rw [← hq]
      exact ⟨rfl, rfl⟩
    · rw [if_neg h] at hq
      exact absurd hq (by simp)

/-- Witness for `parse_cast_capability`: casting a kind-0 root to
`SourceFile` preserves the green tree and the error list. -/
theorem parse_cast_capability_witness :
    parse_zero_cast.green = parse_zero.green ∧
    parse_zero_cast.errors = parse_zero.errors :=
  (parse_cast_capability SourceFile parse_zero).2 parse_zero_cast rfl

/-- C10: once the mnemonic matches a link's name, that link decides the
result for every tail: a failing argument extraction makes the call return
no instruction with exactly the extractor's diagnostics — no
"Unrecognized instruction" diagnostic, even if the tail registers the same
name again. -/
theorem cons_router_match_decides {Args : Type} (name : String)
    (from_instr_args :
      FromHirCollectors → FromHirBlockCtx → InstructionId →
        FromHirCollectors × Option Args)
    (lower_fn :
      FromHirCollectors → FromHirBlockCtx → String → Args →
        FromHirCollectors × Option Instruction)
    (collectors collectors' : FromHirCollectors) (ctx : FromHirBlockCtx)
    (instr : InstructionId)
    (h : from_instr_args collectors ctx instr = (collectors', none)) :
    ∀ tail : Router,
      (Router.ConsRouter name Args from_instr_args lower_fn tail).handle_instr
        collectors ctx name instr = (collectors', none) := by
  intro tail
  rw [Router.handle_instr, if_pos rfl, h]

/-- Witness for `cons_router_match_decides`: a failing extractor that has
pushed one diagnostic, in front of a tail that registers the same name. -/
theorem cons_router_match_decides_witness :
    (fun (collectors : FromHirCollectors) (_ : FromHirBlockCtx)
        (instr : InstructionId) =>
      (collectors ++ [make_diagnostic instr "bad args"],
        (none : Option Unit))) [] 0 7 =
      ([make_diagnostic 7 "bad args"], (none : Option Unit)) ∧
    (Router.ConsRouter "NOP" Unit
        (fun collectors _ instr =>
          (collectors ++ [make_diagnostic instr "bad args"], none))
        (fun collectors _ _ _ => (collectors, some ⟨1⟩))
        nop_router).handle_instr [] 0 "NOP" 7 =
      ([make_diagnostic 7 "bad args"], none) :=
  ⟨rfl,
    cons_router_match_decides "NOP"
      (fun collectors _ instr =>
        (collectors ++ [make_diagnostic instr "bad args"], none))
      (fun collectors _ _ _ => (collectors, some ⟨1⟩))
      [] [make_diagnostic 7 "bad args"] 0 7 rfl nop_router⟩
